import Mathlib

/-!
Shallow embedding of the `WalletTracker` subsystem
(`src/services/walletTracker.ts`) of the doviumV2 repository, together with
proofs about the specification's testable properties.

Modelling conventions:
* `bigint` amounts become `Int`; `Date` timestamps become `Nat` (milliseconds
  since epoch).
* The JavaScript `Map` (insertion-ordered, unique keys, `set` replaces in
  place) becomes an association list with `mapSet` / `mapDelete` / `lookup`
  below; the JavaScript `Set` of callbacks becomes a duplicate-free `List Nat`
  of opaque callback identifiers grown with `setAdd`.
* External collaborator effects (the ledger balance read, the watch
  registration, the liveness probe) are passed in as explicit arguments of
  type `Except String _`; an `Except.error` argument models the corresponding
  `await` throwing.  Listener cancellation (`removeAccountChangeListener`) is
  modelled as succeeding except in `removeSubscription`, where the claims
  under study concern its failure-free path as well.
* `this.emit(...)` appends to an `events` log in the tracker state; each
  invocation of a registered change callback appends to a `callbackCalls`
  log.  A registered callback itself throwing during dispatch is modelled by
  the `dispatchThrows` flag of `handleNotification`.
* Methods that can `throw` return `TrackerState × Except String Unit`, so the
  state reached before the throw (including emitted events) stays observable.
* Only the methods the claims depend on are embedded; `shutdown`,
  `refreshAllHoldings`, `getBalance` and `getWalletStats` are out of scope.
-/

namespace WalletTracker

/-- A fungible-token balance as read from the ledger
(`TokenBalance` in `src/types/types.ts`). -/
structure TokenBalance where
  mint : String
  amount : Int
  decimals : Nat
deriving DecidableEq, Repr

/-- A single per-mint balance delta (`TokenChange` in `src/types/types.ts`). -/
structure TokenChange where
  mint : String
  oldBalance : Int
  newBalance : Int
  decimals : Nat
  timestamp : Nat
deriving DecidableEq, Repr

/-- The cached snapshot for one address
(`WalletHoldings` in `src/types/types.ts`). -/
structure WalletHoldings where
  address : String
  tokens : List TokenBalance
  lastUpdated : Nat
deriving DecidableEq, Repr

/-- Association-list lookup, mirroring `Map.get`. -/
def lookup {β : Type} (m : List (String × β)) (k : String) : Option β :=
  match m with
  | [] => none
  | (k', v) :: t => if k' = k then some v else lookup t k

/-- `Map.set` semantics: replace the value in place if the key is present,
append a fresh entry otherwise. -/
def mapSet {β : Type} (m : List (String × β)) (k : String) (v : β) :
    List (String × β) :=
  match m with
  | [] => [(k, v)]
  | (k', v') :: t => if k' = k then (k, v) :: t else (k', v') :: mapSet t k v

/-- `Map.delete` semantics: drop the first entry with the given key. -/
def mapDelete {β : Type} (m : List (String × β)) (k : String) :
    List (String × β) :=
  match m with
  | [] => []
  | (k', v') :: t => if k' = k then t else (k', v') :: mapDelete t k

/-- Lookup with a default, mirroring `map.get(k) ?? d`. -/
def lookupD {β : Type} (m : List (String × β)) (k : String) (d : β) : β :=
  (lookup m k).getD d

/-- `Set.add` semantics on the callback-identifier list: no duplicates,
insertion order preserved. -/
def setAdd (l : List Nat) (x : Nat) : List Nat :=
  if x ∈ l then l else l ++ [x]

/-- The diff algorithm `WalletTracker.detectChanges`: first pass over the
current tokens emits an entry for every mint that is new or whose amount
differs from the previous snapshot; second pass over the previous tokens emits
a closing entry for every mint absent from the current snapshot.  The source
pushes into a shared array in exactly this order. -/
def detectChanges (previousTokens currentTokens : List TokenBalance)
    (timestamp : Nat) : List TokenChange :=
  (currentTokens.filterMap fun currentToken =>
    match previousTokens.find? (fun t => t.mint == currentToken.mint) with
    | none =>
        some ⟨currentToken.mint, 0, currentToken.amount,
              currentToken.decimals, timestamp⟩
    | some previousToken =>
        if previousToken.amount = currentToken.amount then none
        else
          some ⟨currentToken.mint, previousToken.amount, currentToken.amount,
                currentToken.decimals, timestamp⟩)
  ++ previousTokens.filterMap fun previousToken =>
      if currentTokens.any (fun t => t.mint == previousToken.mint) then none
      else
        some ⟨previousToken.mint, previousToken.amount, 0,
              previousToken.decimals, timestamp⟩

/-- Events the tracker emits via `this.emit(...)`; message payloads of
`error` events are kept as strings. -/
inductive TrackerEvent where
  | errorEvent (msg : String)
  | changes (address : String) (batch : List TokenChange)
  | subscribed (address : String)
  | unsubscribed (address : String)
  | paused
  | resumed
  | refreshed
deriving DecidableEq, Repr

/-- The mutable fields of the `WalletTracker` class, plus two logs that make
externally visible behavior provable: `events` records every `emit`, and
`callbackCalls` records every invocation of a registered change callback
(identified by an opaque `Nat`) together with the batch it received. -/
structure TrackerState where
  holdingsCache : List (String × WalletHoldings)
  subscriptions : List (String × Nat)
  eventHandlers : List (String × List Nat)
  updateLatencies : List Nat
  isPaused : Bool
  updateCount : Nat
  errorCount : Nat
  events : List TrackerEvent
  callbackCalls : List (Nat × String × List TokenChange)
deriving DecidableEq, Repr

/-- `WalletTracker.getTokenAccounts`: the ledger read is passed in as
`readResult`; a throwing read (`Except.error`) is caught, an `error` event is
emitted, and the empty balance list is returned.  The read never propagates
an exception to its caller. -/
def getTokenAccounts (s : TrackerState) (walletAddress : String)
    (readResult : Except String (List TokenBalance)) :
    List TokenBalance × TrackerState :=
  match readResult with
  | .ok tokens => (tokens, s)
  | .error e =>
      ([], { s with
              events := s.events ++
                [TrackerEvent.errorEvent ("Error fetching token accounts for "
                  ++ walletAddress ++ ": " ++ e)] })

/-- The `error` events a ledger read leaves behind: none on success, the
caught-and-emitted message on failure (see `getTokenAccounts`). -/
def readErrorEvents (a : String) (rd : Except String (List TokenBalance)) :
    List TrackerEvent :=
  match rd with
  | .ok _ => []
  | .error e =>
      [TrackerEvent.errorEvent ("Error fetching token accounts for "
        ++ a ++ ": " ++ e)]

/-- `WalletTracker.updateWalletHoldings`: read the current balances (with the
read-failure policy of `getTokenAccounts`), diff against the cached snapshot
(or report every token as new when there is none), replace the cached
snapshot wholesale, and return the change list.  Total — never throws. -/
def updateWalletHoldings (s : TrackerState) (walletAddress : String)
    (readResult : Except String (List TokenBalance)) (now : Nat) :
    List TokenChange × TrackerState :=
  let r := getTokenAccounts s walletAddress readResult
  let tokens := r.1
  let s1 := r.2
  let previousHoldings := lookup s1.holdingsCache walletAddress
  let currentHoldings : WalletHoldings := ⟨walletAddress, tokens, now⟩
  let changes :=
    match previousHoldings with
    | some prev => detectChanges prev.tokens tokens now
    | none =>
        tokens.map fun token =>
          ⟨token.mint, 0, token.amount, token.decimals, now⟩
  (changes,
   { s1 with
      holdingsCache := mapSet s1.holdingsCache walletAddress currentHoldings })

/-- `WalletTracker.setupWebSocketSubscription`: throw on an invalid address;
if a watch already exists, just add the callback to the handler set; otherwise
register the singleton handler set, open the watch (`watchOpen` models
`connection.onAccountChange`, whose failure is emitted and rethrown), store
the watch handle, run one initial refresh — whose returned change list the
source discards — and emit `subscribed`. -/
def setupWebSocketSubscription (s : TrackerState) (walletAddress : String)
    (callback : Nat) (valid : Bool) (watchOpen : Except String Nat)
    (readResult : Except String (List TokenBalance)) (now : Nat) :
    TrackerState × Except String Unit :=
  if valid = false then (s, .error "Invalid wallet address")
  else if (lookup s.subscriptions walletAddress).isSome then
    let handlers := lookupD s.eventHandlers walletAddress []
    ({ s with
        eventHandlers :=
          mapSet s.eventHandlers walletAddress (setAdd handlers callback) },
     .ok ())
  else
    match watchOpen with
    | .error e =>
        let s1 := { s with
          eventHandlers := mapSet s.eventHandlers walletAddress [callback] }
        ({ s1 with
            events := s1.events ++
              [TrackerEvent.errorEvent ("Failed to setup subscription: " ++ e)] },
         .error e)
    | .ok subscriptionId =>
        let s1 := { s with
          eventHandlers := mapSet s.eventHandlers walletAddress [callback] }
        let s2 := { s1 with
          subscriptions := mapSet s1.subscriptions walletAddress subscriptionId }
        let r := updateWalletHoldings s2 walletAddress readResult now
        ({ r.2 with events := r.2.events ++ [TrackerEvent.subscribed walletAddress] },
         .ok ())

/-- The `onAccountChange` notification closure registered by
`setupWebSocketSubscription`: refresh, record the latency sample, dispatch a
non-empty change list to every currently registered handler and emit
`changes`, then increment the update counter; if the dispatch throws
(a registered callback failing — `dispatchThrows`), increment the error
counter and emit an `error` event instead, skipping the update counter. -/
def handleNotification (s : TrackerState) (walletAddress : String)
    (readResult : Except String (List TokenBalance)) (startTime endTime : Nat)
    (dispatchThrows : Bool) : TrackerState :=
  let r := updateWalletHoldings s walletAddress readResult endTime
  let changes := r.1
  let s2 := { r.2 with
    updateLatencies := r.2.updateLatencies ++ [endTime - startTime] }
  if 0 < changes.length then
    if dispatchThrows then
      { s2 with
          errorCount := s2.errorCount + 1,
          events := s2.events ++ [TrackerEvent.errorEvent "Error processing wallet update"] }
    else
      let currentHandlers := lookupD s2.eventHandlers walletAddress []
      let s3 := { s2 with
        callbackCalls := s2.callbackCalls ++
          currentHandlers.map fun h => (h, walletAddress, changes) }
      let s4 := { s3 with
        events := s3.events ++ [TrackerEvent.changes walletAddress changes] }
      { s4 with updateCount := s4.updateCount + 1 }
  else
    { s2 with updateCount := s2.updateCount + 1 }

/-- Result of `WalletTracker.checkHealth`
(`HealthStatus` in `src/types/types.ts`, with `details` inlined). -/
structure HealthStatus where
  status : String
  activeSubscriptions : Nat
  cachedWallets : Nat
  lastUpdate : Option Nat
  errors : List String
deriving DecidableEq, Repr

/-- The scan over `holdingsCache.values()` for the most recent `lastUpdated`
(`!lastUpdate || holdings.lastUpdated > lastUpdate`). -/
def mostRecentUpdate (cache : List (String × WalletHoldings)) : Option Nat :=
  cache.foldl
    (fun lastUpdate kv =>
      match lastUpdate with
      | none => some kv.2.lastUpdated
      | some lu =>
          if lu < kv.2.lastUpdated then some kv.2.lastUpdated else some lu)
    none

/-- `WalletTracker.checkHealth`: the liveness probe (`connection.getSlot()`),
the staleness scan and the subscription-count comparison all sit in one `try`
block, in that order; a probe failure therefore jumps straight to the `catch`,
which appends only the connection error (and leaves `lastUpdate` at its
initial `null`).  Classification: no errors is healthy, fewer than two is
degraded, otherwise unhealthy. -/
def checkHealth (s : TrackerState) (probeResult : Except String Unit)
    (now : Nat) : HealthStatus :=
  let scanned : List String × Option Nat :=
    match probeResult with
    | .error e => (["Connection error: " ++ e], none)
    | .ok _ =>
        let lastUpdate := mostRecentUpdate s.holdingsCache
        let staleErrors :=
          match lastUpdate with
          | some lu =>
              if 5 * 60 * 1000 < now - lu then ["Some wallet data may be stale"]
              else []
          | none => []
        let mismatchErrors :=
          if s.subscriptions.length ≠ s.eventHandlers.length then
            ["Subscription mismatch: " ++ toString s.subscriptions.length
              ++ "/" ++ toString s.eventHandlers.length]
          else []
        (staleErrors ++ mismatchErrors, lastUpdate)
  { status :=
      if scanned.1.length = 0 then "healthy"
      else if scanned.1.length < 2 then "degraded"
      else "unhealthy",
    activeSubscriptions := s.subscriptions.length,
    cachedWallets := s.holdingsCache.length,
    lastUpdate := scanned.2,
    errors := scanned.1 }

/-- `WalletTracker.removeSubscription`: fetch the watch handle and return at
once when the truthiness test `!subscriptionId` passes — i.e. when there is no
entry, or the stored id is `0`.  Otherwise cancel the listener (`cancelResult`
models `removeAccountChangeListener`; on failure an `error` event is emitted
and the exception rethrown), then delete the watch handle, the handler set and
the cached snapshot, and emit `unsubscribed`. -/
def removeSubscription (s : TrackerState) (walletAddress : String)
    (cancelResult : Except String Unit) : TrackerState × Except String Unit :=
  match lookup s.subscriptions walletAddress with
  | none => (s, .ok ())
  | some subscriptionId =>
      if subscriptionId = 0 then (s, .ok ())
      else
        match cancelResult with
        | .error e =>
            ({ s with
                events := s.events ++
                  [TrackerEvent.errorEvent ("Error removing subscription: " ++ e)] },
             .error e)
        | .ok _ =>
            ({ s with
                subscriptions := mapDelete s.subscriptions walletAddress,
                eventHandlers := mapDelete s.eventHandlers walletAddress,
                holdingsCache := mapDelete s.holdingsCache walletAddress,
                events := s.events ++ [TrackerEvent.unsubscribed walletAddress] },
             .ok ())

/-- `WalletTracker.pauseTracking`: no-op when already paused; otherwise cancel
every watch handle (cancellation modelled as succeeding), delete every
subscription entry, mark paused and emit `paused`.  Handler sets and cached
snapshots are not touched. -/
def pauseTracking (s : TrackerState) : TrackerState × Except String Unit :=
  if s.isPaused then (s, .ok ())
  else
    ({ s with
        subscriptions := [],
        isPaused := true,
        events := s.events ++ [TrackerEvent.paused] },
     .ok ())

/-- Sequencing of fallible steps: stop at the first step that throws,
returning the state reached so far, as a `for` loop over `await`s does. -/
def foldE {α : Type}
    (f : TrackerState → α → TrackerState × Except String Unit) :
    TrackerState → List α → TrackerState × Except String Unit
  | s, [] => (s, .ok ())
  | s, a :: t =>
      match f s a with
      | (s', .ok _) => foldE f s' t
      | (s', .error e) => (s', .error e)

/-- The body of `resumeTracking`'s loop over one address: look up the
retained handler set (a live read of the mutated state, as in the source) and
re-subscribe each retained handler in order. -/
def resumeStep (validOf : String → Bool)
    (watchOpenOf : String → Except String Nat)
    (readOf : String → Except String (List TokenBalance)) (now : Nat)
    (acc : TrackerState) (address : String) :
    TrackerState × Except String Unit :=
  match lookup acc.eventHandlers address with
  | none => (acc, .ok ())
  | some handlers =>
      foldE
        (fun acc2 handler =>
          setupWebSocketSubscription acc2 address handler
            (validOf address) (watchOpenOf address) (readOf address) now)
        acc handlers

/-- `WalletTracker.resumeTracking`: no-op when not paused; otherwise iterate
over the snapshot of `holdingsCache` keys, running `resumeStep` per address.
`validOf`, `watchOpenOf` and `readOf` supply the external collaborator
responses per address.  A failing call emits an `error` event and rethrows;
success clears the paused mark and emits `resumed`. -/
def resumeTracking (s : TrackerState) (validOf : String → Bool)
    (watchOpenOf : String → Except String Nat)
    (readOf : String → Except String (List TokenBalance)) (now : Nat) :
    TrackerState × Except String Unit :=
  if s.isPaused = false then (s, .ok ())
  else
    let addresses := s.holdingsCache.map Prod.fst
    let r := foldE (resumeStep validOf watchOpenOf readOf now) s addresses
    match r with
    | (s', .ok _) =>
        ({ s' with isPaused := false, events := s'.events ++ [TrackerEvent.resumed] },
         .ok ())
    | (s', .error e) =>
        ({ s' with
            events := s'.events ++
              [TrackerEvent.errorEvent ("Error resuming tracking: " ++ e)] },
         .error e)

/-- Result of `WalletTracker.getMetrics`; the two derived ratios are modelled
over `ℚ`. -/
structure MetricsSnapshot where
  updateLatency : ℚ
  successRate : ℚ
  errorCount : Nat
  totalUpdates : Nat
  activeSubscriptions : Nat
deriving DecidableEq, Repr

/-- `WalletTracker.getMetrics`: average latency is the `reduce`d sum of the
samples divided by their number (0 with no samples); success rate is
`(updateCount - errorCount) / updateCount`, or 1 with no updates. -/
def getMetrics (s : TrackerState) : MetricsSnapshot :=
  let avgLatency : ℚ :=
    if 0 < s.updateLatencies.length then
      ((s.updateLatencies.foldl (fun a b => a + b) 0 : Nat) : ℚ) /
        (s.updateLatencies.length : ℚ)
    else 0
  { updateLatency := avgLatency,
    successRate :=
      if 0 < s.updateCount then
        ((s.updateCount : ℚ) - (s.errorCount : ℚ)) / (s.updateCount : ℚ)
      else 1,
    errorCount := s.errorCount,
    totalUpdates := s.updateCount,
    activeSubscriptions := s.subscriptions.length }

/-! ## Association-list lemmas -/

theorem lookup_mapSet_self {β : Type} (m : List (String × β)) (k : String)
    (v : β) : lookup (mapSet m k v) k = some v := by
  induction m with
  | nil => simp [mapSet, lookup]
  | cons kv t ih =>
      obtain ⟨k', v'⟩ := kv
      by_cases h : k' = k
      · simp [mapSet, lookup, h]
      · simp [mapSet, lookup, h, ih]

theorem lookup_mapSet_ne {β : Type} (m : List (String × β)) (k k' : String)
    (v : β) (h : k ≠ k') : lookup (mapSet m k v) k' = lookup m k' := by
  induction m with
  | nil => simp [mapSet, lookup, h]
  | cons kv t ih =>
      obtain ⟨k0, v0⟩ := kv
      by_cases h0 : k0 = k
      · subst h0
        simp [mapSet, lookup, h]
      · simp [mapSet, lookup, h0, ih]

theorem lookup_mem {β : Type} (m : List (String × β)) (k : String) (v : β)
    (h : lookup m k = some v) : k ∈ m.map Prod.fst := by
  induction m with
  | nil => simp [lookup] at h
  | cons kv t ih =>
      obtain ⟨k0, v0⟩ := kv
      by_cases h0 : k0 = k
      · simp [h0]
      · simp only [lookup, if_neg h0] at h
        simp [ih h]

theorem lookup_mapDelete_self {β : Type} (m : List (String × β)) (k : String)
    (hm : (m.map Prod.fst).Nodup) : lookup (mapDelete m k) k = none := by
  induction m with
  | nil => simp [mapDelete, lookup]
  | cons kv t ih =>
      obtain ⟨k0, v0⟩ := kv
      rw [List.map_cons, List.nodup_cons] at hm
      by_cases h0 : k0 = k
      · subst h0
        simp only [mapDelete, if_pos rfl]
        cases hl : lookup t k0 with
        | none => exact hl
        | some v => exact absurd (lookup_mem t k0 v hl) hm.1
      · simp [mapDelete, lookup, h0, ih hm.2]

theorem lookup_mapDelete_ne {β : Type} (m : List (String × β)) (k k' : String)
    (h : k ≠ k') : lookup (mapDelete m k) k' = lookup m k' := by
  induction m with
  | nil => simp [mapDelete, lookup]
  | cons kv t ih =>
      obtain ⟨k0, v0⟩ := kv
      by_cases h0 : k0 = k
      · subst h0
        simp [mapDelete, lookup, h]
      · simp [mapDelete, lookup, h0, ih]

/-! ## Diff-engine lemmas and C1 -/

/-- If no element of `l` has key `m`, then filtering a key-preserving
`filterMap` of `l` for key `m` gives nothing. -/
theorem filter_filterMap_eq_nil {α : Type} (key : α → String)
    (f : α → Option TokenChange)
    (hf : ∀ a b, f a = some b → b.mint = key a) (l : List α) (m : String)
    (hm : ∀ a ∈ l, key a ≠ m) :
    (l.filterMap f).filter (fun b => b.mint == m) = [] := by
  induction l with
  | nil => simp
  | cons a t ih =>
    rw [List.filterMap_cons]
    cases hfa : f a with
    | none => exact ih fun x hx => hm x (List.mem_cons_of_mem a hx)
    | some b =>
      rw [List.filter_cons]
      have hbm : (b.mint == m) = false := by
        have := hf a b hfa
        simpa [this] using hm a (List.mem_cons_self a t)
      rw [hbm]
      simpa using ih fun x hx => hm x (List.mem_cons_of_mem a hx)

/-- For a list with duplicate-free keys, filtering a key-preserving
`filterMap` for key `m` yields exactly the image of the unique element with
key `m` (found by `find?`), if any. -/
theorem filter_filterMap_key {α : Type} (key : α → String)
    (f : α → Option TokenChange)
    (hf : ∀ a b, f a = some b → b.mint = key a) (l : List α) (m : String)
    (hl : (l.map key).Nodup) :
    (l.filterMap f).filter (fun b => b.mint == m) =
      match l.find? (fun a => key a == m) with
      | none => []
      | some a => (f a).toList := by
  induction l with
  | nil => simp
  | cons a t ih =>
    rw [List.map_cons, List.nodup_cons] at hl
    obtain ⟨hka, hnd⟩ := hl
    by_cases hm : key a = m
    · rw [List.find?_cons_of_pos _ (by simp [hm])]
      have htail : (t.filterMap f).filter (fun b => b.mint == m) = [] := by
        refine filter_filterMap_eq_nil key f hf t m fun x hx hxm => ?_
        exact hka (hm ▸ hxm ▸ List.mem_map_of_mem key hx)
      rw [List.filterMap_cons]
      cases hfa : f a with
      | none => simpa [hfa] using htail
      | some b =>
        have hbm : (b.mint == m) = true := by simp [hf a b hfa, hm]
        simp [hfa, List.filter_cons, hbm, htail]
    · rw [List.find?_cons_of_neg _ (by simp [hm])]
      rw [List.filterMap_cons]
      cases hfa : f a with
      | none => exact ih hnd
      | some b =>
        rw [List.filter_cons]
        have hbm : (b.mint == m) = false := by simp [hf a b hfa, hm]
        rw [hbm]
        simpa using ih hnd

/-- C1: for snapshots with duplicate-free mints, `detectChanges old new`
contains, for each mint `m`, exactly one entry when `m` appeared,
disappeared, or changed amount — with `oldBalance` the old amount (0 when
absent) and `newBalance` the new amount (0 when absent) — and no entry when
`m` is unchanged in both or held in neither. -/
theorem detectChanges_diff_spec (prev cur : List TokenBalance) (ts : Nat)
    (hp : (prev.map TokenBalance.mint).Nodup)
    (hc : (cur.map TokenBalance.mint).Nodup) (m : String) :
    (detectChanges prev cur ts).filter (fun ch => ch.mint == m) =
      match prev.find? (fun t => t.mint == m),
            cur.find? (fun t => t.mint == m) with
      | none, none => []
      | none, some c => [⟨m, 0, c.amount, c.decimals, ts⟩]
      | some p, none => [⟨m, p.amount, 0, p.decimals, ts⟩]
      | some p, some c =>
          if p.amount = c.amount then []
          else [⟨m, p.amount, c.amount, c.decimals, ts⟩] := by
  unfold detectChanges
  rw [List.filter_append]
  have hA := filter_filterMap_key TokenBalance.mint
    (fun currentToken =>
      match prev.find? (fun t => t.mint == currentToken.mint) with
      | none =>
          some ⟨currentToken.mint, 0, currentToken.amount,
                currentToken.decimals, ts⟩
      | some previousToken =>
          if previousToken.amount = currentToken.amount then none
          else
            some ⟨currentToken.mint, previousToken.amount,
                  currentToken.amount, currentToken.decimals, ts⟩)
    (by
      intro a b hab
      dsimp only at hab
      cases h : prev.find? (fun t => t.mint == a.mint) with
      | none =>
          simp only [h, Option.some.injEq] at hab
          subst hab; rfl
      | some p =>
          by_cases hamt : p.amount = a.amount
          · simp [h, hamt] at hab
          · simp only [h, if_neg hamt, Option.some.injEq] at hab
            subst hab; rfl)
    cur m hc
  have hB := filter_filterMap_key TokenBalance.mint
    (fun previousToken =>
      if cur.any (fun t => t.mint == previousToken.mint) then none
      else
        some ⟨previousToken.mint, previousToken.amount, 0,
              previousToken.decimals, ts⟩)
    (by
      intro a b hab
      dsimp only at hab
      by_cases hany : cur.any (fun t => t.mint == a.mint)
      · simp [hany] at hab
      · simp only [if_neg hany, Option.some.injEq] at hab
        subst hab; rfl)
    prev m hp
  rw [hA, hB]
  cases hfp : prev.find? (fun t => t.mint == m) with
  | none =>
    cases hfc : cur.find? (fun t => t.mint == m) with
    | none => simp
    | some c =>
      have hcm : c.mint = m := by
        have := List.find?_some hfc
        simpa using this
      simp only [hcm, hfp]
      simp
  | some p =>
    have hpm : p.mint = m := by
      have := List.find?_some hfp
      simpa using this
    cases hfc : cur.find? (fun t => t.mint == m) with
    | none =>
      have hnoc : (cur.any fun t => t.mint == m) = false := by
        rw [List.find?_eq_none] at hfc
        simp only [List.any_eq_false]
        intro x hx
        simpa using hfc x hx
      simp [hpm, hnoc]
    | some c =>
      have hcm : c.mint = m := by
        have := List.find?_some hfc
        simpa using this
      have hyes : (cur.any fun t => t.mint == m) = true :=
        List.any_eq_true.mpr ⟨c, List.mem_of_find?_eq_some hfc, by simp [hcm]⟩
      by_cases hamt : p.amount = c.amount
      · simp [hpm, hcm, hfp, hyes, hamt]
      · simp [hpm, hcm, hfp, hyes, hamt]

/-- C1 witness: the diff characterization instantiated on concrete
snapshots (mint "X" fully closed between the two reads). -/
theorem detectChanges_diff_spec_witness :
    (detectChanges [⟨"X", 5, 6⟩, ⟨"Y", 9, 0⟩] [⟨"Y", 9, 0⟩, ⟨"Z", 3, 2⟩]
        7).filter (fun ch => ch.mint == "X") = [⟨"X", 5, 0, 6, 7⟩] := by
  have h := detectChanges_diff_spec [⟨"X", 5, 6⟩, ⟨"Y", 9, 0⟩]
    [⟨"Y", 9, 0⟩, ⟨"Z", 3, 2⟩] 7 (by decide) (by decide) "X"
  rw [h]
  rfl

/-! ## C2: read-failure policy of a refresh -/

/-- C2: a failing ledger read inside a refresh is never propagated:
`updateWalletHoldings` still returns normally, an `error` event is appended,
the read is treated as the empty balance set (so the diff runs against `[]`),
and the cached snapshot is replaced by an empty-token snapshot. -/
theorem updateWalletHoldings_read_failure (s : TrackerState)
    (walletAddress : String) (e : String) (now : Nat) :
    (updateWalletHoldings s walletAddress (.error e) now).2.events =
        s.events ++ [TrackerEvent.errorEvent
          ("Error fetching token accounts for " ++ walletAddress ++ ": " ++ e)] ∧
    lookup (updateWalletHoldings s walletAddress (.error e) now).2.holdingsCache
        walletAddress = some ⟨walletAddress, [], now⟩ ∧
    (updateWalletHoldings s walletAddress (.error e) now).1 =
      (match lookup s.holdingsCache walletAddress with
       | some prev => detectChanges prev.tokens [] now
       | none => []) := by
  refine ⟨rfl, ?_, ?_⟩
  · simp only [updateWalletHoldings, getTokenAccounts]
    exact lookup_mapSet_self _ _ _
  · rfl

/-! ## C3: health classification -/

/-- C3 counterexample: a state whose only cached snapshot is 10 minutes old
(threshold 5 minutes) while the probe fails and the subscription counts
match.  The claim demands at least two errors and status "unhealthy"; the
code's single `try` block skips the staleness check once the probe has
thrown, so exactly one error is returned and the status is "degraded". -/
theorem checkHealth_probe_fail_not_unhealthy :
    (checkHealth
      ⟨[("A", ⟨"A", [], 0⟩)], [("A", 1)], [("A", [7])], [], false, 0, 0, [], []⟩
      (.error "boom") 600000).errors.length = 1 ∧
    (checkHealth
      ⟨[("A", ⟨"A", [], 0⟩)], [("A", 1)], [("A", [7])], [], false, 0, 0, [], []⟩
      (.error "boom") 600000).status = "degraded" :=
  ⟨rfl, rfl⟩

/-- C3 amended: the probe, staleness check and mismatch check run in one
`try` in that order.  When the probe fails, the remaining checks are skipped
and the result carries exactly the connectivity error (status "degraded");
when the probe succeeds, the staleness error and the mismatch error are
appended independently, and 0 errors classify as healthy, exactly 1 as
degraded and 2 or more as unhealthy. -/
theorem checkHealth_amended (s : TrackerState) (now : Nat) :
    (∀ e, checkHealth s (.error e) now =
      ⟨"degraded", s.subscriptions.length, s.holdingsCache.length, none,
       ["Connection error: " ++ e]⟩) ∧
    ((checkHealth s (.ok ()) now).errors =
      (match mostRecentUpdate s.holdingsCache with
       | some lu =>
           if 5 * 60 * 1000 < now - lu then ["Some wallet data may be stale"]
           else []
       | none => []) ++
      (if s.subscriptions.length ≠ s.eventHandlers.length then
        ["Subscription mismatch: " ++ toString s.subscriptions.length
          ++ "/" ++ toString s.eventHandlers.length]
       else [])) ∧
    (∀ probe : Except String Unit,
      ((checkHealth s probe now).errors.length = 0 →
        (checkHealth s probe now).status = "healthy") ∧
      ((checkHealth s probe now).errors.length = 1 →
        (checkHealth s probe now).status = "degraded") ∧
      (2 ≤ (checkHealth s probe now).errors.length →
        (checkHealth s probe now).status = "unhealthy")) := by
  refine ⟨fun e => rfl, rfl, fun probe => ?_⟩
  have hst : (checkHealth s probe now).status =
      if (checkHealth s probe now).errors.length = 0 then "healthy"
      else if (checkHealth s probe now).errors.length < 2 then "degraded"
      else "unhealthy" := rfl
  refine ⟨fun h0 => ?_, fun h1 => ?_, fun h2 => ?_⟩
  · rw [hst, if_pos h0]
  · rw [hst, if_neg (by omega), if_pos (by omega)]
  · rw [hst, if_neg (by omega), if_neg (by omega)]

/-- C3 amended witness: a healthy probe over a stale-only state classifies
as degraded with its single staleness error. -/
theorem checkHealth_amended_witness :
    (checkHealth
      ⟨[("A", ⟨"A", [], 0⟩)], [("A", 1)], [("A", [7])], [], false, 0, 0, [], []⟩
      (.ok ()) 600000).status = "degraded" := by
  have h := checkHealth_amended
    ⟨[("A", ⟨"A", [], 0⟩)], [("A", 1)], [("A", [7])], [], false, 0, 0, [], []⟩
    600000
  exact ((h.2.2 (.ok ())).2.1) rfl

/-! ## C10: metrics snapshot -/

/-- Left fold of addition equals the initial value plus the list sum. -/
theorem foldl_add_eq_sum (l : List Nat) (n : Nat) :
    l.foldl (fun a b => a + b) n = n + l.sum := by
  induction l generalizing n with
  | nil => simp
  | cons a t ih =>
      rw [List.foldl_cons, ih, List.sum_cons]
      omega

/-- C10: the metrics snapshot's average latency is the arithmetic mean of
the recorded samples (0 with none), and its success rate is
`(updates - errors) / updates`, or 1 when no update was counted. -/
theorem getMetrics_spec (s : TrackerState) :
    (getMetrics s).updateLatency =
      (if s.updateLatencies = [] then 0
       else (s.updateLatencies.map (Nat.cast : Nat → ℚ)).sum /
              (s.updateLatencies.length : ℚ)) ∧
    (getMetrics s).successRate =
      (if s.updateCount = 0 then 1
       else ((s.updateCount : ℚ) - (s.errorCount : ℚ)) /
              (s.updateCount : ℚ)) := by
  constructor
  · by_cases h : s.updateLatencies = []
    · simp [getMetrics, h]
    · have hlen : 0 < s.updateLatencies.length := List.length_pos.mpr h
      simp only [getMetrics, if_pos hlen, if_neg h]
      rw [foldl_add_eq_sum, Nat.zero_add, Nat.cast_list_sum]
  · by_cases h : s.updateCount = 0
    · simp [getMetrics, h]
    · have hpos : 0 < s.updateCount := Nat.pos_of_ne_zero h
      simp [getMetrics, if_pos hpos, if_neg h]

/-! ## Frame lemmas for a refresh -/

/-- A refresh never touches the subscription map, the handler map, the
latency samples, the pause flag, the counters or the callback log. -/
theorem updateWalletHoldings_frame (s : TrackerState) (a : String)
    (rd : Except String (List TokenBalance)) (now : Nat) :
    (updateWalletHoldings s a rd now).2.subscriptions = s.subscriptions ∧
    (updateWalletHoldings s a rd now).2.eventHandlers = s.eventHandlers ∧
    (updateWalletHoldings s a rd now).2.updateLatencies = s.updateLatencies ∧
    (updateWalletHoldings s a rd now).2.isPaused = s.isPaused ∧
    (updateWalletHoldings s a rd now).2.updateCount = s.updateCount ∧
    (updateWalletHoldings s a rd now).2.errorCount = s.errorCount ∧
    (updateWalletHoldings s a rd now).2.callbackCalls = s.callbackCalls := by
  cases rd <;> simp [updateWalletHoldings, getTokenAccounts]

/-- The cache after a refresh: the snapshot for the refreshed address is
replaced wholesale with the read's tokens (empty on a failed read). -/
theorem updateWalletHoldings_cache (s : TrackerState) (a : String)
    (rd : Except String (List TokenBalance)) (now : Nat) :
    (updateWalletHoldings s a rd now).2.holdingsCache =
      mapSet s.holdingsCache a ⟨a, rd.toOption.getD [], now⟩ := by
  cases rd <;> simp [updateWalletHoldings, getTokenAccounts, Except.toOption]

/-- The change list a refresh returns: diff against the previous snapshot,
or an all-new report when no snapshot was cached. -/
theorem updateWalletHoldings_changes (s : TrackerState) (a : String)
    (rd : Except String (List TokenBalance)) (now : Nat) :
    (updateWalletHoldings s a rd now).1 =
      (match lookup s.holdingsCache a with
       | some prev => detectChanges prev.tokens (rd.toOption.getD []) now
       | none =>
           (rd.toOption.getD []).map fun token =>
             ⟨token.mint, 0, token.amount, token.decimals, now⟩) := by
  cases rd <;> simp [updateWalletHoldings, getTokenAccounts, Except.toOption]

/-- A refresh whose read succeeds emits nothing. -/
theorem updateWalletHoldings_ok_events (s : TrackerState) (a : String)
    (tokens : List TokenBalance) (now : Nat) :
    (updateWalletHoldings s a (.ok tokens) now).2.events = s.events := by
  simp [updateWalletHoldings, getTokenAccounts]

/-! ## C6: notification-handler counters -/

/-- C6 counterexample: a tracked address whose refresh fails to reach the
ledger.  The swallowed read failure leaves the handler body exception-free,
so the update counter is incremented and the error counter is not — the
claim expected the error counter to increase. -/
theorem handleNotification_ledger_failure_counters :
    (handleNotification
      ⟨[("A", ⟨"A", [⟨"X", 5, 6⟩], 0⟩)], [("A", 1)], [("A", [7])], [],
       false, 0, 0, [], []⟩
      "A" (.error "down") 10 25 false).updateCount = 1 ∧
    (handleNotification
      ⟨[("A", ⟨"A", [⟨"X", 5, 6⟩], 0⟩)], [("A", 1)], [("A", [7])], [],
       false, 0, 0, [], []⟩
      "A" (.error "down") 10 25 false).errorCount = 0 :=
  ⟨rfl, rfl⟩

/-- C6 amended: the notification handler increments the update counter on
every notification whose body runs to completion — including when the ledger
read failed, because `getTokenAccounts` swallows that failure, so the error
counter is NOT incremented for it.  The error counter increments (and the
update counter does not) exactly when the handler body itself throws, i.e.
when dispatching a non-empty batch to a callback fails. -/
theorem handleNotification_counters (s : TrackerState) (walletAddress : String)
    (readResult : Except String (List TokenBalance)) (startTime endTime : Nat) :
    ((handleNotification s walletAddress readResult startTime endTime
        false).updateCount = s.updateCount + 1 ∧
     (handleNotification s walletAddress readResult startTime endTime
        false).errorCount = s.errorCount) ∧
    (0 < (updateWalletHoldings s walletAddress readResult endTime).1.length →
      (handleNotification s walletAddress readResult startTime endTime
         true).updateCount = s.updateCount ∧
      (handleNotification s walletAddress readResult startTime endTime
         true).errorCount = s.errorCount + 1) := by
  have hf := updateWalletHoldings_frame s walletAddress readResult endTime
  constructor
  · constructor
    · simp only [handleNotification]
      split
      · simp [hf.2.2.2.2.1]
      · simp [hf.2.2.2.2.1]
    · simp only [handleNotification]
      split
      · simp [hf.2.2.2.2.2.1]
      · simp [hf.2.2.2.2.2.1]
  · intro hlen
    simp only [handleNotification, if_pos hlen]
    exact ⟨hf.2.2.2.2.1, by simp [hf.2.2.2.2.2.1]⟩

/-- C6 amended witness: a successful read that changes a balance — update
counter incremented, error counter untouched. -/
theorem handleNotification_counters_witness :
    (handleNotification
      ⟨[("A", ⟨"A", [⟨"X", 5, 6⟩], 0⟩)], [("A", 1)], [("A", [7])], [],
       false, 3, 1, [], []⟩
      "A" (.ok [⟨"X", 8, 6⟩]) 10 25 true).errorCount = 2 :=
  (((handleNotification_counters
      ⟨[("A", ⟨"A", [⟨"X", 5, 6⟩], 0⟩)], [("A", 1)], [("A", [7])], [],
       false, 3, 1, [], []⟩
      "A" (.ok [⟨"X", 8, 6⟩]) 10 25).2) (by decide)).2

/-! ## C7: missing staleness guard on the cache write -/

/-- C7: the cache write of `updateWalletHoldings` has no tracking guard: for
an address with no registered callbacks and no watch handle (e.g. just
unsubscribed), the refresh still installs a fresh cache entry instead of
no-opping as the required invariant demands. -/
theorem updateWalletHoldings_writes_untracked (s : TrackerState)
    (walletAddress : String) (tokens : List TokenBalance) (now : Nat)
    (hcb : lookup s.eventHandlers walletAddress = none)
    (hsub : lookup s.subscriptions walletAddress = none) :
    lookup (updateWalletHoldings s walletAddress
        (.ok tokens) now).2.holdingsCache walletAddress =
      some ⟨walletAddress, tokens, now⟩ := by
  simp only [updateWalletHoldings, getTokenAccounts]
  exact lookup_mapSet_self _ _ _

/-- C7 witness: an entirely untracked tracker still gets a cache entry for
"A" from an in-flight refresh. -/
theorem updateWalletHoldings_writes_untracked_witness :
    lookup (updateWalletHoldings ⟨[], [], [], [], false, 0, 0, [], []⟩ "A"
        (.ok [⟨"X", 1000, 6⟩]) 99).2.holdingsCache "A" =
      some ⟨"A", [⟨"X", 1000, 6⟩], 99⟩ :=
  updateWalletHoldings_writes_untracked
    ⟨[], [], [], [], false, 0, 0, [], []⟩ "A" [⟨"X", 1000, 6⟩] 99 rfl rfl

/-! ## C5: the initial refresh of a first subscribe -/

/-- C5 counterexample: fresh tracker, subscribe "A" with callback 7, the
ledger returning mint "X" amount 1000.  The initial refresh computes the
baseline batch and populates the cache, but `setupWebSocketSubscription`
discards its return value: no callback is invoked and no `changes` event is
emitted — the events log holds only `subscribed`, against the claim's
emitted batch `[{mint X, old 0, new 1000}]`. -/
theorem subscribe_initial_refresh_not_emitted :
    (setupWebSocketSubscription ⟨[], [], [], [], false, 0, 0, [], []⟩ "A" 7
        true (.ok 1) (.ok [⟨"X", 1000, 6⟩]) 0).1.callbackCalls = [] ∧
    (setupWebSocketSubscription ⟨[], [], [], [], false, 0, 0, [], []⟩ "A" 7
        true (.ok 1) (.ok [⟨"X", 1000, 6⟩]) 0).1.events =
      [TrackerEvent.subscribed "A"] :=
  ⟨rfl, rfl⟩

/-- C5 amended: subscribing an address with no prior cached snapshot performs
one synchronous initial refresh, which reports every held mint with
`oldBalance = 0` and `newBalance` the held amount in its RETURNED change list
and replaces the cached snapshot with the read — but that baseline batch is
discarded by the subscribe path: no callback receives it and no `changes`
event is emitted (only `subscribed`). -/
theorem subscribe_initial_refresh (s : TrackerState) (walletAddress : String)
    (callback : Nat) (subId : Nat) (tokens : List TokenBalance) (now : Nat)
    (hsub : lookup s.subscriptions walletAddress = none)
    (hcache : lookup s.holdingsCache walletAddress = none) :
    (setupWebSocketSubscription s walletAddress callback true (.ok subId)
        (.ok tokens) now).2 = .ok () ∧
    lookup (setupWebSocketSubscription s walletAddress callback true
        (.ok subId) (.ok tokens) now).1.holdingsCache walletAddress =
      some ⟨walletAddress, tokens, now⟩ ∧
    (∀ s0 : TrackerState, lookup s0.holdingsCache walletAddress = none →
      (updateWalletHoldings s0 walletAddress (.ok tokens) now).1 =
        tokens.map fun token =>
          ⟨token.mint, 0, token.amount, token.decimals, now⟩) ∧
    (setupWebSocketSubscription s walletAddress callback true (.ok subId)
        (.ok tokens) now).1.callbackCalls = s.callbackCalls ∧
    (setupWebSocketSubscription s walletAddress callback true (.ok subId)
        (.ok tokens) now).1.events =
      s.events ++ [TrackerEvent.subscribed walletAddress] := by
  have hbase : ∀ s0 : TrackerState,
      lookup s0.holdingsCache walletAddress = none →
      (updateWalletHoldings s0 walletAddress (.ok tokens) now).1 =
        tokens.map fun token =>
          ⟨token.mint, 0, token.amount, token.decimals, now⟩ := by
    intro s0 h0
    rw [updateWalletHoldings_changes, h0]
    rfl
  refine ⟨?_, ?_, hbase, ?_, ?_⟩
  · simp [setupWebSocketSubscription, hsub]
  · simp only [setupWebSocketSubscription, hsub, Option.isSome_none,
      Bool.false_eq_true, if_false, if_neg (by simp : ¬(true = false))]
    rw [updateWalletHoldings_cache]
    rw [lookup_mapSet_self]
    rfl
  · simp only [setupWebSocketSubscription, hsub, Option.isSome_none,
      Bool.false_eq_true, if_false, if_neg (by simp : ¬(true = false))]
    have := (updateWalletHoldings_frame
      { s with
          eventHandlers := mapSet s.eventHandlers walletAddress [callback],
          subscriptions := mapSet s.subscriptions walletAddress subId }
      walletAddress (.ok tokens) now).2.2.2.2.2.2
    simpa using this
  · simp only [setupWebSocketSubscription, hsub, Option.isSome_none,
      Bool.false_eq_true, if_false, if_neg (by simp : ¬(true = false))]
    have := updateWalletHoldings_ok_events
      { s with
          eventHandlers := mapSet s.eventHandlers walletAddress [callback],
          subscriptions := mapSet s.subscriptions walletAddress subId }
      walletAddress tokens now
    simpa using this

/-- C5 amended witness: the amended statement instantiated on the fresh
tracker and the single-token read. -/
theorem subscribe_initial_refresh_witness :
    lookup (setupWebSocketSubscription ⟨[], [], [], [], false, 0, 0, [], []⟩
        "A" 7 true (.ok 1) (.ok [⟨"X", 1000, 6⟩]) 0).1.holdingsCache "A" =
      some ⟨"A", [⟨"X", 1000, 6⟩], 0⟩ :=
  (subscribe_initial_refresh ⟨[], [], [], [], false, 0, 0, [], []⟩ "A" 7 1
    [⟨"X", 1000, 6⟩] 0 rfl rfl).2.1

/-! ## C8: unsubscribe -/

/-- C8 counterexample: an address with a retained callback set and cached
snapshot but no watch handle (the paused situation).  `removeSubscription`
hits the `!subscriptionId` early return and leaves the whole state — callback
set and cached snapshot included — untouched, emitting nothing; the claim
said both would still be removed. -/
theorem removeSubscription_no_handle_keeps_state :
    (removeSubscription
      ⟨[("A", ⟨"A", [], 0⟩)], [], [("A", [7])], [], true, 0, 0, [], []⟩
      "A" (.ok ())).1 =
      ⟨[("A", ⟨"A", [], 0⟩)], [], [("A", [7])], [], true, 0, 0, [], []⟩ :=
  rfl

/-- C8 amended: `unsubscribe` is a complete no-op — watch handle, callback
set and cached snapshot all left as they are, nothing emitted — whenever the
address has no watch-handle entry (in particular while paused, even with a
retained callback set or snapshot) or its stored handle id is 0 (the
source's truthiness test).  Only when a nonzero handle exists does it cancel
the watch, remove the handle, the callback set and the snapshot (leaving
other addresses untouched), and emit `unsubscribed`. -/
theorem removeSubscription_spec (s : TrackerState) (walletAddress : String) :
    ((lookup s.subscriptions walletAddress = none ∨
      lookup s.subscriptions walletAddress = some 0) →
      removeSubscription s walletAddress (.ok ()) = (s, .ok ())) ∧
    (∀ subId, lookup s.subscriptions walletAddress = some subId → subId ≠ 0 →
      (s.subscriptions.map Prod.fst).Nodup →
      (s.eventHandlers.map Prod.fst).Nodup →
      (s.holdingsCache.map Prod.fst).Nodup →
      (removeSubscription s walletAddress (.ok ())).2 = .ok () ∧
      lookup (removeSubscription s walletAddress
        (.ok ())).1.subscriptions walletAddress = none ∧
      lookup (removeSubscription s walletAddress
        (.ok ())).1.eventHandlers walletAddress = none ∧
      lookup (removeSubscription s walletAddress
        (.ok ())).1.holdingsCache walletAddress = none ∧
      (∀ a, a ≠ walletAddress →
        lookup (removeSubscription s walletAddress
          (.ok ())).1.subscriptions a = lookup s.subscriptions a ∧
        lookup (removeSubscription s walletAddress
          (.ok ())).1.eventHandlers a = lookup s.eventHandlers a ∧
        lookup (removeSubscription s walletAddress
          (.ok ())).1.holdingsCache a = lookup s.holdingsCache a) ∧
      (removeSubscription s walletAddress (.ok ())).1.events =
        s.events ++ [TrackerEvent.unsubscribed walletAddress]) := by
  constructor
  · rintro (h | h) <;> simp [removeSubscription, h]
  · intro subId hsome hne hns hnh hnc
    have hred : removeSubscription s walletAddress (.ok ()) =
        ({ s with
            subscriptions := mapDelete s.subscriptions walletAddress,
            eventHandlers := mapDelete s.eventHandlers walletAddress,
            holdingsCache := mapDelete s.holdingsCache walletAddress,
            events := s.events ++ [TrackerEvent.unsubscribed walletAddress] },
         .ok ()) := by
      simp [removeSubscription, hsome, hne]
    rw [hred]
    refine ⟨rfl, ?_, ?_, ?_, ?_, rfl⟩
    · exact lookup_mapDelete_self _ _ hns
    · exact lookup_mapDelete_self _ _ hnh
    · exact lookup_mapDelete_self _ _ hnc
    · intro a ha
      refine ⟨?_, ?_, ?_⟩ <;>
        exact lookup_mapDelete_ne _ _ _ fun h => ha h.symm

/-- C8 amended witness: a live nonzero handle — after unsubscribe the
callback set is gone. -/
theorem removeSubscription_spec_witness :
    lookup (removeSubscription
      ⟨[("A", ⟨"A", [], 0⟩)], [("A", 5)], [("A", [7])], [], false, 0, 0, [], []⟩
      "A" (.ok ())).1.eventHandlers "A" = none :=
  ((removeSubscription_spec
      ⟨[("A", ⟨"A", [], 0⟩)], [("A", 5)], [("A", [7])], [], false, 0, 0, [], []⟩
      "A").2 5 rfl (by decide) (by decide) (by decide) (by decide)).2.2.1

/-! ## C4: multiplexing and the at-most-one-watch invariant -/

theorem mem_setAdd_self (l : List Nat) (x : Nat) : x ∈ setAdd l x := by
  unfold setAdd
  by_cases h : x ∈ l <;> simp [h]

theorem mem_setAdd_of_mem (l : List Nat) (x y : Nat) (h : y ∈ l) :
    y ∈ setAdd l x := by
  unfold setAdd
  by_cases hx : x ∈ l <;> simp [hx, h]

/-- Setting a key leaves the entries of every other key unchanged. -/
theorem filter_mapSet_ne {β : Type} (m : List (String × β)) (k a : String)
    (v : β) (h : k ≠ a) :
    (mapSet m k v).filter (fun kv => kv.1 == a) =
      m.filter (fun kv => kv.1 == a) := by
  induction m with
  | nil => simp [mapSet, h]
  | cons kv0 t ih =>
      obtain ⟨k0, v0⟩ := kv0
      by_cases h0 : k0 = k
      · subst h0
        simp [mapSet, List.filter_cons, h]
      · simp [mapSet, h0, List.filter_cons, ih]

/-- Setting a key leaves at most `max` of one entry and what was there. -/
theorem length_filter_mapSet_self {β : Type} (m : List (String × β))
    (a : String) (v : β) :
    ((mapSet m a v).filter (fun kv => kv.1 == a)).length =
      max (m.filter (fun kv => kv.1 == a)).length 1 := by
  induction m with
  | nil => simp [mapSet]
  | cons kv0 t ih =>
      obtain ⟨k0, v0⟩ := kv0
      by_cases h0 : k0 = a
      · subst h0
        simp only [mapSet, if_pos rfl, List.filter_cons]
        simp
      · simp [mapSet, h0, List.filter_cons, ih]

/-- Every branch of `setupWebSocketSubscription` keeps at most one watch
handle per address: the already-subscribed branch leaves the map unchanged,
and the fresh branch installs a single entry with `mapSet`. -/
theorem setup_preserves_at_most_one_watch (s : TrackerState)
    (walletAddress : String) (cb : Nat) (valid : Bool)
    (w : Except String Nat) (rd : Except String (List TokenBalance))
    (now : Nat)
    (hinv : ∀ a, (s.subscriptions.filter (fun kv => kv.1 == a)).length ≤ 1) :
    ∀ a, (((setupWebSocketSubscription s walletAddress cb valid w rd
        now).1.subscriptions).filter (fun kv => kv.1 == a)).length ≤ 1 := by
  intro a
  by_cases hv : valid = false
  · simp [setupWebSocketSubscription, hv]
    exact hinv a
  · by_cases hs : (lookup s.subscriptions walletAddress).isSome
    · simp [setupWebSocketSubscription, hv, hs]
      exact hinv a
    · cases w with
      | error e =>
          simp [setupWebSocketSubscription, hv, hs]
          exact hinv a
      | ok subId =>
          have hsubs : (setupWebSocketSubscription s walletAddress cb valid
              (.ok subId) rd now).1.subscriptions =
              mapSet s.subscriptions walletAddress subId := by
            simp only [setupWebSocketSubscription, if_neg hv, hs,
              Bool.false_eq_true, if_false]
            exact (updateWalletHoldings_frame _ _ _ _).1
          rw [hsubs]
          by_cases ha : walletAddress = a
          · subst ha
            rw [length_filter_mapSet_self]
            have := hinv walletAddress
            omega
          · rw [filter_mapSet_ne _ _ _ _ ha]
            exact hinv a

/-- A completed dispatch appends one callback-log entry per currently
registered handler, in handler order. -/
theorem handleNotification_dispatch (s : TrackerState) (walletAddress : String)
    (rd : Except String (List TokenBalance)) (t0 t1 : Nat)
    (hlen : 0 < (updateWalletHoldings s walletAddress rd t1).1.length) :
    (handleNotification s walletAddress rd t0 t1 false).callbackCalls =
      s.callbackCalls ++
        (lookupD s.eventHandlers walletAddress []).map
          (fun h => (h, walletAddress,
            (updateWalletHoldings s walletAddress rd t1).1)) := by
  have hf := updateWalletHoldings_frame s walletAddress rd t1
  simp only [handleNotification, if_pos hlen, Bool.false_eq_true, if_false]
  simp [hf.2.1, hf.2.2.2.2.2.2]

/-- C4: a second `subscribe` for an already-subscribed address only adds the
callback to the existing handler set — the watch-handle map is unchanged, so
no second watch opens — and afterwards every handler in the grown set (the
new callback and all previous ones) receives every future non-empty change
batch; moreover `setupWebSocketSubscription` preserves, in all its branches,
the invariant that every address has at most one watch handle. -/
theorem subscribe_second_multiplexes (s : TrackerState) (walletAddress : String)
    (callback : Nat) (watchOpen : Except String Nat)
    (readResult : Except String (List TokenBalance)) (now : Nat)
    (subId : Nat) (hsub : lookup s.subscriptions walletAddress = some subId) :
    (setupWebSocketSubscription s walletAddress callback true watchOpen
        readResult now) =
      ({ s with eventHandlers := mapSet s.eventHandlers walletAddress (setAdd (lookupD s.eventHandlers walletAddress []) callback) }, .ok ()) ∧
    (setupWebSocketSubscription s walletAddress callback true watchOpen
        readResult now).1.subscriptions = s.subscriptions ∧
    lookup (setupWebSocketSubscription s walletAddress callback true watchOpen
        readResult now).1.eventHandlers walletAddress =
      some (setAdd (lookupD s.eventHandlers walletAddress []) callback) ∧
    callback ∈ setAdd (lookupD s.eventHandlers walletAddress []) callback ∧
    (∀ h, h ∈ lookupD s.eventHandlers walletAddress [] →
      h ∈ setAdd (lookupD s.eventHandlers walletAddress []) callback) ∧
    (∀ (rd : Except String (List TokenBalance)) (t0 t1 : Nat) (h : Nat),
      h ∈ setAdd (lookupD s.eventHandlers walletAddress []) callback →
      0 < (updateWalletHoldings (setupWebSocketSubscription s walletAddress
            callback true watchOpen readResult now).1 walletAddress rd
            t1).1.length →
      (h, walletAddress,
        (updateWalletHoldings (setupWebSocketSubscription s walletAddress
          callback true watchOpen readResult now).1 walletAddress rd t1).1) ∈
        (handleNotification (setupWebSocketSubscription s walletAddress
          callback true watchOpen readResult now).1 walletAddress rd t0 t1
          false).callbackCalls) ∧
    (∀ (s0 : TrackerState) (a0 : String) (cb : Nat) (v : Bool)
        (w : Except String Nat) (rd : Except String (List TokenBalance))
        (t : Nat),
      (∀ a, (s0.subscriptions.filter (fun kv => kv.1 == a)).length ≤ 1) →
      ∀ a, (((setupWebSocketSubscription s0 a0 cb v w rd
          t).1.subscriptions).filter (fun kv => kv.1 == a)).length ≤ 1) := by
  have hmain : setupWebSocketSubscription s walletAddress callback true
      watchOpen readResult now =
      ({ s with eventHandlers := mapSet s.eventHandlers walletAddress (setAdd (lookupD s.eventHandlers walletAddress []) callback) }, .ok ()) := by
    simp [setupWebSocketSubscription, hsub]
  refine ⟨hmain, by rw [hmain], ?_, mem_setAdd_self _ _,
    fun h hh => mem_setAdd_of_mem _ _ _ hh, ?_, ?_⟩
  · rw [hmain]
    exact lookup_mapSet_self _ _ _
  · intro rd t0 t1 h hh hlen
    rw [handleNotification_dispatch _ _ _ _ _ hlen]
    refine List.mem_append_right _ ?_
    have hlk : lookupD (setupWebSocketSubscription s walletAddress callback
        true watchOpen readResult now).1.eventHandlers walletAddress [] =
        setAdd (lookupD s.eventHandlers walletAddress []) callback := by
      rw [hmain]
      unfold lookupD
      rw [lookup_mapSet_self]
      rfl
    rw [hlk]
    exact List.mem_map_of_mem _ hh
  · intro s0 a0 cb v w rd t hinv a
    exact setup_preserves_at_most_one_watch s0 a0 cb v w rd t hinv a

/-- C4 witness: subscribing callback 9 to the already-subscribed "A" (watch
handle 5, existing callback 7) grows the handler set to both callbacks. -/
theorem subscribe_second_multiplexes_witness :
    lookup (setupWebSocketSubscription
      ⟨[("A", ⟨"A", [], 0⟩)], [("A", 5)], [("A", [7])], [], false, 0, 0, [], []⟩
      "A" 9 true (.ok 2) (.ok []) 0).1.eventHandlers "A" = some [7, 9] := by
  have h := (subscribe_second_multiplexes
    ⟨[("A", ⟨"A", [], 0⟩)], [("A", 5)], [("A", [7])], [], false, 0, 0, [], []⟩
    "A" 9 (.ok 2) (.ok []) 0 5 rfl).2.2.1
  rw [h]
  rfl

/-! ## C9: pause / resume -/

/-- Re-storing the value already present is the identity. -/
theorem mapSet_lookup_self {β : Type} (m : List (String × β)) (k : String)
    (v : β) (h : lookup m k = some v) : mapSet m k v = m := by
  induction m with
  | nil => simp [lookup] at h
  | cons kv t ih =>
      obtain ⟨k0, v0⟩ := kv
      by_cases h0 : k0 = k
      · subst h0
        simp only [lookup] at h
        simp at h
        subst h
        simp [mapSet]
      · simp only [lookup, if_neg h0] at h
        simp [mapSet, h0, ih h]

/-- Two successive sets of the same key collapse to the second. -/
theorem mapSet_mapSet {β : Type} (m : List (String × β)) (k : String)
    (v v' : β) : mapSet (mapSet m k v) k v' = mapSet m k v' := by
  induction m with
  | nil => simp [mapSet]
  | cons kv t ih =>
      obtain ⟨k0, v0⟩ := kv
      by_cases h0 : k0 = k
      · subst h0
        simp [mapSet]
      · simp [mapSet, h0, ih]

/-- Folding `setAdd` over fresh elements is plain concatenation. -/
theorem foldl_setAdd_of_nodup :
    ∀ (rest acc : List Nat), (acc ++ rest).Nodup →
      rest.foldl setAdd acc = acc ++ rest := by
  intro rest
  induction rest with
  | nil => intro acc h; simp
  | cons x xs ih =>
      intro acc h
      have hx : x ∉ acc := by
        intro hin
        have := List.disjoint_of_nodup_append h
        exact this hin (List.mem_cons_self x xs)
      have hadd : setAdd acc x = acc ++ [x] := by
        simp [setAdd, hx]
      rw [List.foldl_cons, hadd, ih (acc ++ [x]) (by simpa using h)]
      simp

/-- The already-subscribed branch of subscribe: only the handler set grows. -/
theorem setup_already_subscribed (s : TrackerState) (a : String) (h : Nat)
    (w : Except String Nat) (rd : Except String (List TokenBalance)) (t : Nat)
    (hs : (lookup s.subscriptions a).isSome) :
    setupWebSocketSubscription s a h true w rd t =
      ({ s with eventHandlers := mapSet s.eventHandlers a (setAdd (lookupD s.eventHandlers a []) h) }, .ok ()) := by
  simp [setupWebSocketSubscription, hs]

/-- The fresh branch of subscribe with a successful watch open: singleton
handler set, watch handle stored, initial refresh performed (cache replaced,
possibly an `error` event), `subscribed` emitted. -/
theorem setup_fresh (s : TrackerState) (a : String) (h subId : Nat)
    (rd : Except String (List TokenBalance)) (t : Nat)
    (hs : lookup s.subscriptions a = none) :
    setupWebSocketSubscription s a h true (.ok subId) rd t =
      ({ holdingsCache := mapSet s.holdingsCache a ⟨a, rd.toOption.getD [], t⟩,
         subscriptions := mapSet s.subscriptions a subId,
         eventHandlers := mapSet s.eventHandlers a [h],
         updateLatencies := s.updateLatencies,
         isPaused := s.isPaused,
         updateCount := s.updateCount,
         errorCount := s.errorCount,
         events := s.events ++ readErrorEvents a rd ++ [TrackerEvent.subscribed a],
         callbackCalls := s.callbackCalls }, .ok ()) := by
  cases rd <;>
    simp [setupWebSocketSubscription, hs, updateWalletHoldings,
      getTokenAccounts, Except.toOption, readErrorEvents]

/-- Folding the already-subscribed branch of subscribe over a handler list
only folds `setAdd` over the stored handler set. -/
theorem foldE_setup_has (a : String) (w : Except String Nat)
    (rd : Except String (List TokenBalance)) (t : Nat) :
    ∀ (hs : List Nat) (σ : TrackerState) (subId : Nat) (cur : List Nat),
      lookup σ.subscriptions a = some subId →
      lookup σ.eventHandlers a = some cur →
      foldE (fun acc2 h => setupWebSocketSubscription acc2 a h true w rd t)
          σ hs =
        ({ σ with eventHandlers := mapSet σ.eventHandlers a (hs.foldl setAdd cur) }, .ok ()) := by
  intro hs
  induction hs with
  | nil =>
      intro σ subId cur hsub hhand
      simp [foldE, mapSet_lookup_self _ _ _ hhand]
  | cons h rest ih =>
      intro σ subId cur hsub hhand
      have h1 := setup_already_subscribed σ a h w rd t (by rw [hsub]; rfl)
      have hD : lookupD σ.eventHandlers a [] = cur := by
        simp [lookupD, hhand]
      rw [hD] at h1
      have h2 := ih
        { σ with eventHandlers := mapSet σ.eventHandlers a (setAdd cur h) }
        subId (setAdd cur h) hsub (lookup_mapSet_self _ _ _)
      simp only [foldE, h1, h2]
      simp [mapSet_mapSet]

/-- Folding subscribe over a whole (duplicate-free, non-empty) handler list
for a not-yet-subscribed address: the first handler takes the fresh branch —
installing the watch handle, a fresh snapshot and the singleton handler set —
and the remaining handlers multiplex back in, restoring the full handler
list. -/
theorem foldE_setup_all (a : String) (subId : Nat)
    (rd : Except String (List TokenBalance)) (t : Nat)
    (hs : List Nat) (σ : TrackerState)
    (hnone : lookup σ.subscriptions a = none) (hnd : hs.Nodup)
    (hne : hs ≠ []) :
    foldE (fun acc2 h => setupWebSocketSubscription acc2 a h true (.ok subId)
        rd t) σ hs =
      ({ holdingsCache := mapSet σ.holdingsCache a ⟨a, rd.toOption.getD [], t⟩,
         subscriptions := mapSet σ.subscriptions a subId,
         eventHandlers := mapSet σ.eventHandlers a hs,
         updateLatencies := σ.updateLatencies,
         isPaused := σ.isPaused,
         updateCount := σ.updateCount,
         errorCount := σ.errorCount,
         events := σ.events ++ readErrorEvents a rd ++ [TrackerEvent.subscribed a],
         callbackCalls := σ.callbackCalls }, .ok ()) := by
  cases hs with
  | nil => exact absurd rfl hne
  | cons h1 rest =>
      have hf := setup_fresh σ a h1 subId rd t hnone
      have hh := foldE_setup_has a (.ok subId) rd t rest
        ({ holdingsCache := mapSet σ.holdingsCache a ⟨a, rd.toOption.getD [], t⟩,
           subscriptions := mapSet σ.subscriptions a subId,
           eventHandlers := mapSet σ.eventHandlers a [h1],
           updateLatencies := σ.updateLatencies,
           isPaused := σ.isPaused,
           updateCount := σ.updateCount,
           errorCount := σ.errorCount,
           events := σ.events ++ readErrorEvents a rd ++ [TrackerEvent.subscribed a],
           callbackCalls := σ.callbackCalls })
        subId [h1] (lookup_mapSet_self _ _ _) (lookup_mapSet_self _ _ _)
      simp only [foldE, hf, hh]
      have hfold : rest.foldl setAdd [h1] = h1 :: rest := by
        have := foldl_setAdd_of_nodup rest [h1] (by simpa using hnd)
        simpa using this
      simp [mapSet_mapSet, hfold]

/-- An address with no retained handler set resumes to nothing. -/
theorem resumeStep_none (validOf : String → Bool)
    (watchOpenOf : String → Except String Nat)
    (readOf : String → Except String (List TokenBalance)) (now : Nat)
    (acc : TrackerState) (x : String)
    (h : lookup acc.eventHandlers x = none) :
    resumeStep validOf watchOpenOf readOf now acc x = (acc, .ok ()) := by
  simp [resumeStep, h]

/-- Resuming one address with a retained (duplicate-free, non-empty) handler
set: one watch re-opens, the handler set is restored to exactly what was
stored, and the refresh replaces the cached snapshot with the fresh read. -/
theorem resumeStep_some (validOf : String → Bool)
    (watchOpenOf : String → Except String Nat)
    (readOf : String → Except String (List TokenBalance)) (now : Nat)
    (acc : TrackerState) (x : String) (l : List Nat) (subId : Nat)
    (hv : validOf x = true) (hw : watchOpenOf x = .ok subId)
    (hh : lookup acc.eventHandlers x = some l)
    (hsub : lookup acc.subscriptions x = none)
    (hnd : l.Nodup) (hne : l ≠ []) :
    resumeStep validOf watchOpenOf readOf now acc x =
      ({ holdingsCache :=
           mapSet acc.holdingsCache x ⟨x, (readOf x).toOption.getD [], now⟩,
         subscriptions := mapSet acc.subscriptions x subId,
         eventHandlers := acc.eventHandlers,
         updateLatencies := acc.updateLatencies,
         isPaused := acc.isPaused,
         updateCount := acc.updateCount,
         errorCount := acc.errorCount,
         events := acc.events ++ readErrorEvents x (readOf x)
           ++ [TrackerEvent.subscribed x],
         callbackCalls := acc.callbackCalls }, .ok ()) := by
  unfold resumeStep
  rw [hh, hv, hw]
  have hall := foldE_setup_all x subId (readOf x) now l acc hsub hnd hne
  rw [mapSet_lookup_self _ _ _ hh] at hall
  exact hall

/-- Resuming a duplicate-free address list from a state with no live watches:
the fold succeeds, handler sets are restored verbatim, and each address with
a retained handler set gets exactly one fresh watch handle and a freshly read
snapshot, while everything else is untouched. -/
theorem foldE_resumeStep_all (validOf : String → Bool)
    (watchOpenOf : String → Except String Nat) (watchIdOf : String → Nat)
    (readOf : String → Except String (List TokenBalance)) (now : Nat)
    (hv : ∀ x, validOf x = true)
    (hw : ∀ x, watchOpenOf x = .ok (watchIdOf x)) :
    ∀ (addrs : List String) (σ : TrackerState),
      addrs.Nodup →
      (∀ x ∈ addrs, lookup σ.subscriptions x = none) →
      (∀ x ∈ addrs, ∀ l, lookup σ.eventHandlers x = some l →
        l.Nodup ∧ l ≠ []) →
      ∃ σ' : TrackerState,
        foldE (resumeStep validOf watchOpenOf readOf now) σ addrs =
          (σ', .ok ()) ∧
        σ'.eventHandlers = σ.eventHandlers ∧
        σ'.isPaused = σ.isPaused ∧
        σ'.callbackCalls = σ.callbackCalls ∧
        (∀ x, x ∉ addrs →
          lookup σ'.subscriptions x = lookup σ.subscriptions x ∧
          lookup σ'.holdingsCache x = lookup σ.holdingsCache x) ∧
        (∀ x ∈ addrs,
          (lookup σ.eventHandlers x = none →
            lookup σ'.subscriptions x = none ∧
            lookup σ'.holdingsCache x = lookup σ.holdingsCache x) ∧
          (∀ l, lookup σ.eventHandlers x = some l →
            lookup σ'.subscriptions x = some (watchIdOf x) ∧
            lookup σ'.holdingsCache x =
              some ⟨x, (readOf x).toOption.getD [], now⟩)) := by
  intro addrs
  induction addrs with
  | nil =>
      intro σ _ _ _
      exact ⟨σ, rfl, rfl, rfl, rfl, fun x _ => ⟨rfl, rfl⟩,
        fun x hx => absurd hx (List.not_mem_nil x)⟩
  | cons x rest ih =>
      intro σ hnd hsub hhand
      rw [List.nodup_cons] at hnd
      obtain ⟨hxnotin, hndrest⟩ := hnd
      cases hhx : lookup σ.eventHandlers x with
      | none =>
          obtain ⟨σ', hfold, hEH, hIP, hCC, hout, hin⟩ := ih σ hndrest
            (fun y hy => hsub y (List.mem_cons_of_mem x hy))
            (fun y hy => hhand y (List.mem_cons_of_mem x hy))
          refine ⟨σ', ?_, hEH, hIP, hCC, ?_, ?_⟩
          · simp only [foldE,
              resumeStep_none validOf watchOpenOf readOf now σ x hhx]
            exact hfold
          · intro y hy
            exact hout y fun hmem => hy (List.mem_cons_of_mem x hmem)
          · intro y hy
            rcases List.mem_cons.mp hy with hyx | hyr
            · subst hyx
              refine ⟨fun _ => ?_, fun l hl => ?_⟩
              · have h0 := hout y hxnotin
                exact ⟨h0.1.trans (hsub y (List.mem_cons_self y rest)), h0.2⟩
              · rw [hhx] at hl
                cases hl
            · exact hin y hyr
      | some l =>
          obtain ⟨hlnd, hlne⟩ := hhand x (List.mem_cons_self x rest) l hhx
          have hs0 : lookup σ.subscriptions x = none :=
            hsub x (List.mem_cons_self x rest)
          have hstep := resumeStep_some validOf watchOpenOf readOf now σ x l
            (watchIdOf x) (hv x) (hw x) hhx hs0 hlnd hlne
          obtain ⟨σ', hfold, hEH, hIP, hCC, hout, hin⟩ := ih
            ({ holdingsCache := mapSet σ.holdingsCache x
                 ⟨x, (readOf x).toOption.getD [], now⟩,
               subscriptions := mapSet σ.subscriptions x (watchIdOf x),
               eventHandlers := σ.eventHandlers,
               updateLatencies := σ.updateLatencies,
               isPaused := σ.isPaused,
               updateCount := σ.updateCount,
               errorCount := σ.errorCount,
               events := σ.events ++ readErrorEvents x (readOf x)
                 ++ [TrackerEvent.subscribed x],
               callbackCalls := σ.callbackCalls })
            hndrest
            (fun y hy => by
              have hne' : x ≠ y := fun hxy => hxnotin (hxy ▸ hy)
              simpa [lookup_mapSet_ne _ _ _ _ hne'] using
                hsub y (List.mem_cons_of_mem x hy))
            (fun y hy => hhand y (List.mem_cons_of_mem x hy))
          refine ⟨σ', ?_, hEH, hIP, hCC, ?_, ?_⟩
          · simp only [foldE, hstep]
            exact hfold
          · intro y hy
            have hyx : x ≠ y := fun hxy => hy (hxy ▸ List.mem_cons_self x rest)
            have h0 := hout y fun hmem => hy (List.mem_cons_of_mem x hmem)
            constructor
            · rw [h0.1]
              exact lookup_mapSet_ne _ _ _ _ hyx
            · rw [h0.2]
              exact lookup_mapSet_ne _ _ _ _ hyx
          · intro y hy
            rcases List.mem_cons.mp hy with hyx | hyr
            · subst hyx
              refine ⟨fun hnone => ?_, fun l' hl' => ?_⟩
              · rw [hhx] at hnone
                cases hnone
              · have h0 := hout y hxnotin
                constructor
                · rw [h0.1]
                  exact lookup_mapSet_self _ _ _
                · rw [h0.2]
                  exact lookup_mapSet_self _ _ _
            · have hyx : x ≠ y := fun hxy => hxnotin (hxy ▸ hyr)
              have h0 := hin y hyr
              refine ⟨fun hnone => ?_, fun l' hl' => ?_⟩
              · obtain ⟨ha, hb⟩ := h0.1 hnone
                exact ⟨ha, hb.trans (lookup_mapSet_ne _ _ _ _ hyx)⟩
              · exact h0.2 l' hl'

/-- C9 counterexample: tracker with address "A" cached as one token
(mint "X", amount 1000, last updated at 0).  After `pause()` and `resume()`
(ledger now returning an empty balance list at time 50), the cached snapshot
is `⟨A, [], 50⟩` instead of the original `⟨A, [X:1000], 0⟩`: the cached
snapshots are NOT untouched by the pause/resume cycle, because resume
re-subscribes through `setupWebSocketSubscription`, whose initial refresh
replaces the snapshot. -/
theorem pause_resume_touches_cache :
    lookup (resumeTracking
      (pauseTracking ⟨[("A", ⟨"A", [⟨"X", 1000, 6⟩], 0⟩)], [("A", 5)],
        [("A", [7])], [], false, 0, 0, [], []⟩).1
      (fun _ => true) (fun _ => .ok 6) (fun _ => .ok []) 50).1.holdingsCache
      "A" = some ⟨"A", [], 50⟩ ∧
    lookup (⟨[("A", ⟨"A", [⟨"X", 1000, 6⟩], 0⟩)], [("A", 5)], [("A", [7])],
      [], false, 0, 0, [], []⟩ : TrackerState).holdingsCache "A" =
      some ⟨"A", [⟨"X", 1000, 6⟩], 0⟩ :=
  ⟨rfl, rfl⟩

/-- Unfolding of `resumeTracking` on a paused state whose resume loop
succeeds. -/
theorem resumeTracking_paused (s : TrackerState) (validOf : String → Bool)
    (watchOpenOf : String → Except String Nat)
    (readOf : String → Except String (List TokenBalance)) (now : Nat)
    (hp : s.isPaused = true) (σ' : TrackerState)
    (hfold : foldE (resumeStep validOf watchOpenOf readOf now) s
      (s.holdingsCache.map Prod.fst) = (σ', .ok ())) :
    resumeTracking s validOf watchOpenOf readOf now =
      ({ σ' with
          isPaused := false,
          events := σ'.events ++ [TrackerEvent.resumed] }, .ok ()) := by
  simp [resumeTracking, hp, hfold]

/-- C9 amended: `pause` cancels every watch handle while leaving callback
sets and cached snapshots untouched (no-op when already paused; `resume` is a
no-op when not paused), and a subsequent `resume` restores the callback
registrations exactly and re-opens exactly one watch per address with a
retained callback set, so the tracked-address set round-trips; but resume's
re-subscription performs a fresh refresh per address, so the cached snapshot
of every resumed address is REPLACED by the new ledger read (addresses
without callbacks keep their snapshots). -/
theorem pause_resume_spec (s : TrackerState) (validOf : String → Bool)
    (watchOpenOf : String → Except String Nat) (watchIdOf : String → Nat)
    (readOf : String → Except String (List TokenBalance)) (now : Nat)
    (hv : ∀ x, validOf x = true)
    (hw : ∀ x, watchOpenOf x = .ok (watchIdOf x))
    (hnp : s.isPaused = false)
    (hkeys : (s.holdingsCache.map Prod.fst).Nodup)
    (hhand : ∀ x l, lookup s.eventHandlers x = some l → l.Nodup ∧ l ≠ [])
    (hcov : ∀ x, (lookup s.eventHandlers x).isSome →
      (lookup s.holdingsCache x).isSome) :
    pauseTracking s =
      ({ s with
          subscriptions := [],
          isPaused := true,
          events := s.events ++ [TrackerEvent.paused] }, .ok ()) ∧
    (∀ σ : TrackerState, σ.isPaused = true → pauseTracking σ = (σ, .ok ())) ∧
    (∀ σ : TrackerState, σ.isPaused = false →
      resumeTracking σ validOf watchOpenOf readOf now = (σ, .ok ())) ∧
    ∃ s' : TrackerState,
      resumeTracking (pauseTracking s).1 validOf watchOpenOf readOf now =
        (s', .ok ()) ∧
      s'.isPaused = false ∧
      s'.eventHandlers = s.eventHandlers ∧
      (∀ x l, lookup s.eventHandlers x = some l →
        lookup s'.subscriptions x = some (watchIdOf x)) ∧
      (∀ x, lookup s.eventHandlers x = none →
        lookup s'.subscriptions x = none) ∧
      (∀ x l, lookup s.eventHandlers x = some l →
        lookup s'.holdingsCache x =
          some ⟨x, (readOf x).toOption.getD [], now⟩) ∧
      (∀ x, lookup s.eventHandlers x = none →
        lookup s'.holdingsCache x = lookup s.holdingsCache x) := by
  have hpause : pauseTracking s =
      ({ s with
          subscriptions := [],
          isPaused := true,
          events := s.events ++ [TrackerEvent.paused] }, .ok ()) := by
    simp [pauseTracking, hnp]
  refine ⟨hpause, fun σ h => by simp [pauseTracking, h],
    fun σ h => by simp [resumeTracking, h], ?_⟩
  rw [hpause]
  obtain ⟨σ', hfold, hEH, hIP, hCC, hout, hin⟩ :=
    foldE_resumeStep_all validOf watchOpenOf watchIdOf readOf now hv hw
      (s.holdingsCache.map Prod.fst)
      { s with
          subscriptions := [],
          isPaused := true,
          events := s.events ++ [TrackerEvent.paused] }
      hkeys (fun x _ => rfl) (fun x _ l hl => hhand x l hl)
  have hmem : ∀ x, (lookup s.eventHandlers x).isSome →
      x ∈ s.holdingsCache.map Prod.fst := by
    intro x hx
    have hsome := hcov x hx
    cases hc : lookup s.holdingsCache x with
    | none => rw [hc] at hsome; simp at hsome
    | some v => exact lookup_mem _ _ _ hc
  refine ⟨{ σ' with
      isPaused := false,
      events := σ'.events ++ [TrackerEvent.resumed] }, ?_, rfl, hEH, ?_, ?_,
      ?_, ?_⟩
  · exact resumeTracking_paused _ validOf watchOpenOf readOf now rfl σ' hfold
  · intro x l hl
    have hx := hmem x (by rw [hl]; rfl)
    exact ((hin x hx).2 l hl).1
  · intro x hl
    by_cases hx : x ∈ s.holdingsCache.map Prod.fst
    · exact ((hin x hx).1 hl).1
    · exact (hout x hx).1
  · intro x l hl
    have hx := hmem x (by rw [hl]; rfl)
    exact ((hin x hx).2 l hl).2
  · intro x hl
    by_cases hx : x ∈ s.holdingsCache.map Prod.fst
    · exact ((hin x hx).1 hl).2
    · exact (hout x hx).2

/-- C9 amended witness: the single-address tracker — after pause/resume the
watch is re-opened with the fresh handle and the snapshot holds the new
(empty) read. -/
theorem pause_resume_spec_witness :
    ∃ s' : TrackerState,
      resumeTracking
        (pauseTracking ⟨[("A", ⟨"A", [⟨"X", 1000, 6⟩], 0⟩)], [("A", 5)],
          [("A", [7])], [], false, 0, 0, [], []⟩).1
        (fun _ => true) (fun _ => .ok 6) (fun _ => .ok []) 50 =
        (s', .ok ()) ∧
      lookup s'.subscriptions "A" = some 6 ∧
      lookup s'.holdingsCache "A" = some ⟨"A", [], 50⟩ := by
  obtain ⟨s', h1, _, _, h4, _, h6, _⟩ := (pause_resume_spec
    ⟨[("A", ⟨"A", [⟨"X", 1000, 6⟩], 0⟩)], [("A", 5)], [("A", [7])], [],
      false, 0, 0, [], []⟩
    (fun _ => true) (fun _ => .ok 6) (fun _ => 6) (fun _ => .ok []) 50
    (fun _ => rfl) (fun _ => rfl) rfl (by decide)
    (by
      intro x l h
      by_cases hx : "A" = x
      · simp only [lookup, if_pos hx] at h
        cases h
        exact ⟨by decide, by decide⟩
      · simp only [lookup, if_neg hx] at h
        cases h)
    (by
      intro x h
      by_cases hx : "A" = x
      · simp [lookup, hx]
      · simp only [lookup, if_neg hx] at h
        cases h)).2.2.2
  exact ⟨s', h1, h4 "A" [7] rfl, h6 "A" [7] rfl⟩

end WalletTracker
